import Mathlib

/-
  Verification of src/agent-transfer/main.c (monkeysphere agent-transfer).

  Shallow embedding: the C functions are translated to Lean functions over
  explicit state.  Machine integers are modelled as Nat; size_t subtraction
  (where wraparound could matter) is modelled explicitly mod 2^64.  Calls
  into libgcrypt / libassuan are modelled as oracle parameters carrying the
  contracts that the libraries document (for example the RFC-3394 AESWRAP
  length contract quoted verbatim in the source at lines 313-326).
-/

/-- Model of gpg_error_t values as used by main.c.  Only the identity of the
named codes matters to the program (it compares against specific codes and
against 0); `other n` stands for any further nonzero library error code.
The gpg_error source-bit packing is ignored: the program only ever inspects
`gpg_err_code` (the plain code) or truthiness. -/
inductive GpgErrCode where
  | NO_ERROR
  | GENERAL
  | INV_KEYLEN
  | NOT_FOUND
  | UNKNOWN_CURVE
  | UNKNOWN_FLAG
  | INV_CURVE
  | TOO_SHORT
  | TOO_LARGE
  | NO_OBJ
  | ASS_CONNECT_FAILED
  | other (n : Nat)
deriving DecidableEq, Repr

/-- The key_type enum of main.c (lines 169-172). -/
inductive KeyType where
  | kt_unknown
  | kt_rsa
  | kt_ed25519
deriving DecidableEq, Repr

/-- Model of gcry_mpi_t: either an integer MPI, or a raw ("opaque") MPI
holding a byte buffer together with a bit count, or NULL.  gcry_mpi_get_opaque
returns the buffer and bit count for raw MPIs and NULL otherwise. -/
inductive Mpi where
  | null
  | int (n : Nat)
  | raw (bytes : List Nat) (nbits : Nat)
deriving DecidableEq, Repr

/-- gcry_mpi_get_opaque, data component: NULL unless the MPI is raw. -/
def Mpi.rawData : Mpi → Option (List Nat)
  | .raw b _ => some b
  | _ => none

/-- gcry_mpi_get_opaque, bit count component (0 for non-raw MPIs, where the
C library leaves it unset; the program always checks it against a fixed
nonzero value together with a NULL check, so the result is unaffected). -/
def Mpi.rawBits : Mpi → Nat
  | .raw _ nb => nb
  | _ => 0

/-- The raw bytes of an MPI, defaulting to the empty buffer. -/
def Mpi.rawBytes (m : Mpi) : List Nat := (m.rawData).getD []

/-- gcrypt invariant for raw MPIs: the buffer holds (nbits+7)/8 octets. -/
def mpiWF : Mpi → Prop
  | .raw b nb => b.length = (nb + 7) / 8
  | _ => True

/-- Model of an established AES-128 keywrap decryption context
(gcry_cipher_open with GCRY_CIPHER_AES128 / GCRY_CIPHER_MODE_AESWRAP plus
gcry_cipher_setkey).  `decrypt` maps the wrapped bytes to either the
plaintext or an error (an integrity failure is an error).  `decrypt_ok`
carries the documented RFC-3394 contract (quoted in main.c lines 313-326):
decryption succeeds only on inputs of at least 128 bits whose length is a
multiple of 64 bits, and the plaintext is 8 octets shorter than the input. -/
structure WrapCipher where
  decrypt : List Nat → Except GpgErrCode (List Nat)
  decrypt_ok : ∀ w pt, decrypt w = .ok pt →
    16 ≤ w.length ∧ w.length % 8 = 0 ∧ pt.length = w.length - 8

/-- struct exporter (main.c lines 174-191).  Pointers become Options;
the assuan context is tracked only as NULL / non-NULL. -/
structure Exporter where
  ctx_valid : Bool
  wrap_cipher : Option WrapCipher
  wrapped_key : Option (List Nat)
  wrapped_len : Nat
  unwrapped_key : Option (List Nat)
  unwrapped_len : Nat
  ktype : KeyType
  sexp : Option (List Nat)
  n : Mpi
  e : Mpi
  d : Mpi
  p : Mpi
  q : Mpi
  iqmp : Mpi
  curve : Mpi
  flags : Mpi

/-- The zero-initialised exporter of main (line 700:
`struct exporter e = \x7b .wrapped_key = NULL \x7d`). -/
def exporter0 : Exporter :=
  { ctx_valid := false
    wrap_cipher := none
    wrapped_key := none
    wrapped_len := 0
    unwrapped_key := none
    unwrapped_len := 0
    ktype := .kt_unknown
    sexp := none
    n := .null, e := .null, d := .null, p := .null, q := .null
    iqmp := .null, curve := .null, flags := .null }

/- ------------------------------------------------------------------ -/
/- percent_plus_escape (main.c lines 206-243)                          -/
/- ------------------------------------------------------------------ -/

/-- Uppercase hex digit, as produced by snprintf with %02X. -/
def hexU (d : Nat) : Nat := if d < 10 then 48 + d else 55 + d

/-- The bytes the second pass of percent_plus_escape writes for one input
byte c: 43 is the plus sign, 34 the double quote, 37 the percent sign,
32 the space.  Bytes in the escape set become a three-octet %XX sequence,
a space becomes a plus, everything else is copied unchanged. -/
def escapeByte (c : Nat) : List Nat :=
  if c = 43 ∨ c = 34 ∨ c = 37 ∨ c < 32 then [37, hexU (c / 16), hexU (c % 16)]
  else if c = 32 then [43]
  else [c]

/-- percent_plus_escape on a byte string (without its terminating NUL),
as the concatenation of the per-byte codes written by the second pass. -/
def percent_plus_escape : List Nat → List Nat
  | [] => []
  | c :: rest => escapeByte c ++ percent_plus_escape rest

/-- The first (counting) pass of percent_plus_escape (lines 213-220):
starts at 1 (for the trailing NUL) and adds 3 for each byte of the escape
set and 1 for every other byte. -/
def escape_length : List Nat → Nat
  | [] => 1
  | c :: rest => (if c = 43 ∨ c = 34 ∨ c = 37 ∨ c < 32 then 3 else 1) + escape_length rest

/-- Inverse of hexU on digits. -/
def unhex (c : Nat) : Nat :=
  if c ≤ 57 then c - 48 else if c ≤ 70 then c - 55 else c - 87

/-- A decoder for percent-plus escaping, used to establish injectivity. -/
def percent_plus_unescape : List Nat → List Nat
  | [] => []
  | c :: rest =>
    if c = 37 then
      match rest with
      | h :: l :: rest2 => (unhex h * 16 + unhex l) :: percent_plus_unescape rest2
      | [x] => [c, x]
      | [] => [c]
    else if c = 43 then 32 :: percent_plus_unescape rest
    else c :: percent_plus_unescape rest

/-- The bytes of the string `O Brien s "key"` (with apostrophes, byte 39),
the example input named by the specification. -/
def obrien : List Nat := [79, 39, 66, 114, 105, 101, 110, 39, 115, 32, 34, 107, 101, 121, 34]

/- ------------------------------------------------------------------ -/
/- data_cb and extend_wrapped_key (main.c lines 247-256, 368-389)      -/
/- ------------------------------------------------------------------ -/

/-- gcry_cipher_get_algo_keylen(GCRY_CIPHER_AES128): 16 octets. -/
def keywrap_keylen : Nat := 16

/-- extend_wrapped_key (lines 247-256): grows the wrapped-key buffer and
appends the chunk at its end (realloc of NULL is malloc; allocation is
assumed to succeed, the GPG_ERR_ENOMEM path is not modelled). -/
def extend_wrapped_key (e : Exporter) (data : List Nat) : GpgErrCode × Exporter :=
  (.NO_ERROR,
   { e with wrapped_key := some ((e.wrapped_key).getD [] ++ data)
            wrapped_len := e.wrapped_len + data.length })

/-- data_cb (lines 368-389).  `mk` models gcry_cipher_open followed by
gcry_cipher_setkey on the chunk bytes (assumed not to fail for a chunk of
the correct key length): while no cipher is established, a chunk of any
other size is rejected with GPG_ERR_INV_KEYLEN and a 16-octet chunk
establishes the cipher; once the cipher exists every chunk is appended to
the wrapped-key buffer. -/
def data_cb (mk : List Nat → WrapCipher) (e : Exporter) (data : List Nat) :
    GpgErrCode × Exporter :=
  match e.wrap_cipher with
  | none =>
      if data.length ≠ keywrap_keylen then (.INV_KEYLEN, e)
      else (.NO_ERROR, { e with wrap_cipher := some (mk data) })
  | some _ => extend_wrapped_key e data

/-- The sequence of data_cb invocations of a session: assuan aborts the
transaction on the first callback error, so processing stops there. -/
def run_data_cb (mk : List Nat → WrapCipher) : Exporter → List (List Nat) → GpgErrCode × Exporter
  | e, [] => (.NO_ERROR, e)
  | e, d :: ds =>
    let r := data_cb mk e d
    if r.1 = .NO_ERROR then run_data_cb mk r.2 ds else r

/-- A concrete keywrap cipher for witnesses: accepts only 24-octet inputs. -/
def cW : WrapCipher where
  decrypt := fun w => if w.length = 24 then .ok (List.replicate 16 7) else .error (.other 5)
  decrypt_ok := by
    intro w pt h
    dsimp only at h
    by_cases hw : w.length = 24
    · rw [if_pos hw] at h
      cases h
      simp [hw]
    · rw [if_neg hw] at h
      cases h

/-- A cipher constructor for witnesses (any key gives cW). -/
def mkW (_key : List Nat) : WrapCipher := cW

/- ------------------------------------------------------------------ -/
/- unwrap_rsa_key (main.c lines 259-271)                               -/
/- ------------------------------------------------------------------ -/

/-- gcry_mpi_invm on integer MPIs: the inverse of q modulo p when it
exists (found by bounded search, extensionally the extended-Euclid result),
none when no inverse exists.  Non-integer operands never arise on the call
path (unwrap_rsa_key runs only on freshly extracted integer MPIs). -/
def mpi_invm (q p : Mpi) : Option Nat :=
  match q, p with
  | .int qv, .int pv => (List.range pv).find? (fun x => (x * qv) % pv == 1)
  | _, _ => none

/-- unwrap_rsa_key (lines 259-271): allocates a fresh iqmp
(gcry_mpi_new(0)), computes invm(q, p) into it and on success marks the
key RSA; on failure returns GPG_ERR_GENERAL leaving ktype untouched. -/
def unwrap_rsa_key (e : Exporter) : GpgErrCode × Exporter :=
  match mpi_invm e.q e.p with
  | none => (.GENERAL, { e with iqmp := .int 0 })
  | some x => (.NO_ERROR, { e with iqmp := .int x, ktype := .kt_rsa })

/- ------------------------------------------------------------------ -/
/- unwrap_ed25519_key (main.c lines 274-306)                           -/
/- ------------------------------------------------------------------ -/

/-- The bytes of the literal "Ed25519". -/
def ed25519Id : List Nat := [69, 100, 50, 53, 53, 49, 57]

/-- The bytes of the literal "eddsa". -/
def eddsaId : List Nat := [101, 100, 100, 115, 97]

/-- The opaque_compare macro of unwrap_ed25519_key (lines 278-282), as the
success predicate: the MPI is raw, its bit count is 8 times the literal
length and its first bytes equal the literal (memcmp over strlen bytes). -/
def rawStrMatches (m : Mpi) (s : List Nat) : Bool :=
  match m.rawData with
  | some b => m.rawBits == s.length * 8 && b.take s.length == s
  | none => false

/-- unwrap_ed25519_key (lines 274-306): checks, in order, curve against
"Ed25519" (GPG_ERR_UNKNOWN_CURVE), flags against "eddsa"
(GPG_ERR_UNKNOWN_FLAG), that q is a 33-octet raw value starting with 0x40
(one shared error GPG_ERR_INV_CURVE for all q violations), and that d is a
raw value of exactly 32 octets (GPG_ERR_TOO_SHORT / GPG_ERR_TOO_LARGE, and
GPG_ERR_NO_OBJ for a NULL buffer); on success sets ktype to kt_ed25519. -/
def unwrap_ed25519_key (e : Exporter) : GpgErrCode × Exporter :=
  if rawStrMatches e.curve ed25519Id = false then (.UNKNOWN_CURVE, e)
  else if rawStrMatches e.flags eddsaId = false then (.UNKNOWN_FLAG, e)
  else if e.q.rawBits ≠ 33 * 8 ∨ e.q.rawData = none ∨ (e.q.rawBytes).head? ≠ some 64 then
    (.INV_CURVE, e)
  else if e.d.rawBits < 32 * 8 then (.TOO_SHORT, e)
  else if e.d.rawBits > 32 * 8 then (.TOO_LARGE, e)
  else if e.d.rawData = none then (.NO_OBJ, e)
  else (.NO_ERROR, { e with ktype := .kt_ed25519 })

/-- An exporter whose Ed25519 public point has a valid tag but only 32
octets (a length violation). -/
def eLen : Exporter :=
  { exporter0 with
      curve := .raw ed25519Id 56
      flags := .raw eddsaId 40
      q := .raw (64 :: List.replicate 31 0) 256
      d := .raw (List.replicate 32 0) 256 }

/-- An exporter whose Ed25519 public point has 33 octets but a wrong
leading tag byte (0x41 instead of 0x40). -/
def eTag : Exporter :=
  { exporter0 with
      curve := .raw ed25519Id 56
      flags := .raw eddsaId 40
      q := .raw (65 :: List.replicate 32 0) 264
      d := .raw (List.replicate 32 0) 256 }

/-- An exporter whose Ed25519 private scalar has only 31 octets. -/
def eShort : Exporter :=
  { exporter0 with
      curve := .raw ed25519Id 56
      flags := .raw eddsaId 40
      q := .raw (64 :: List.replicate 32 0) 264
      d := .raw (List.replicate 31 0) 248 }

/- ------------------------------------------------------------------ -/
/- unwrap_key (main.c lines 309-366)                                   -/
/- ------------------------------------------------------------------ -/

/-- size_t subtraction with 64-bit wraparound, for `e->wrapped_len - 8`
(line 335/339): meaningful for a < 2^64 and b ≤ 2^64. -/
def sub_size (a b : Nat) : Nat := (a + (2 ^ 64 - b)) % 2 ^ 64

/-- Oracle for the gcry_sexp calls of unwrap_key: `parse` is
gcry_sexp_new over the plaintext (the parsed expression is represented by
its canonical bytes), `extract_rsa` is gcry_sexp_extract_param with
"private-key!rsa" / "nedpq", and `extract_ecc` is gcry_sexp_extract_param
with "private-key!ecc" / "/'curve''flags'qd" (curve, flags, q, d). -/
structure SexpOracle where
  parse : List Nat → Except GpgErrCode (List Nat)
  extract_rsa : List Nat → Except GpgErrCode (Nat × Nat × Nat × Nat × Nat)
  extract_ecc : List Nat → Except GpgErrCode (Mpi × Mpi × Mpi × Mpi)

/-- The two-schema recogniser at the tail of unwrap_key (lines 351-365):
try the RSA schema; on success finish via unwrap_rsa_key; a clean
GPG_ERR_NOT_FOUND tries the Ed25519 schema (finishing via
unwrap_ed25519_key on success); any other RSA error, and any Ed25519
extraction error, is returned as is. -/
def extract_key_model (o : SexpOracle) (sx : List Nat) (e : Exporter) :
    GpgErrCode × Exporter :=
  match o.extract_rsa sx with
  | .ok (nv, ev, dv, pv, qv) =>
      unwrap_rsa_key
        { e with n := .int nv, e := .int ev, d := .int dv, p := .int pv, q := .int qv }
  | .error ret =>
    if ret = .NOT_FOUND then
      match o.extract_ecc sx with
      | .ok (cu, fl, qq, dd) =>
          unwrap_ed25519_key { e with curve := cu, flags := fl, q := qq, d := dd }
      | .error ret2 => (ret2, e)
    else (ret, e)

/-- unwrap_key (lines 309-366): state guard (NULL context, missing cipher,
NULL or empty wrapped buffer give GPG_ERR_GENERAL), then the unwrapped
buffer is sized to wrapped_len - 8 (size_t arithmetic), the blob is
decrypted (a decryption error is returned unchanged; on a failed decrypt
the reallocated buffer holds indeterminate bytes, which the model leaves
as the previous value), the plaintext is parsed as an S-expression and the
key model is extracted. -/
def unwrap_key (o : SexpOracle) (e : Exporter) : GpgErrCode × Exporter :=
  match e.wrap_cipher, e.wrapped_key with
  | some c, some wk =>
    if e.ctx_valid = false ∨ e.wrapped_len < 1 then (.GENERAL, e)
    else
      let e1 := { e with unwrapped_len := sub_size e.wrapped_len 8 }
      match c.decrypt wk with
      | .error ret => (ret, e1)
      | .ok pt =>
        let e2 := { e1 with unwrapped_key := some pt }
        match o.parse pt with
        | .error ret => (ret, e2)
        | .ok sx => extract_key_model o sx { e2 with sexp := some sx }
  | _, _ => (.GENERAL, e)

/-- A trivial sexp oracle for witnesses: everything fails structurally. -/
def oW : SexpOracle where
  parse := fun _ => .error (.other 9)
  extract_rsa := fun _ => .error .NOT_FOUND
  extract_ecc := fun _ => .error .NOT_FOUND

/-- A concrete exporter ready for unwrapping, for witnesses. -/
def eC2 : Exporter :=
  { exporter0 with
      ctx_valid := true
      wrap_cipher := some cW
      wrapped_key := some (List.replicate 24 3)
      wrapped_len := 24 }

/-- A concrete exporter with RSA p and q set, for witnesses. -/
def eC3 : Exporter := { exporter0 with q := .int 3, p := .int 5 }

/- ------------------------------------------------------------------ -/
/- send_to_ssh_agent, message construction (main.c lines 432-519)      -/
/- ------------------------------------------------------------------ -/

/-- SSH2_AGENTC_ADD_IDENTITY, from ssh-agent-proto.h.  Modelled from the
spec: the header ssh-agent-proto.h is part of the repository but not under
src/; the values are the protocol-fixed ones of the SSH agent protocol. -/
def SSH2_AGENTC_ADD_IDENTITY : Nat := 17

/-- SSH2_AGENTC_ADD_ID_CONSTRAINED, from ssh-agent-proto.h (see
SSH2_AGENTC_ADD_IDENTITY about provenance). -/
def SSH2_AGENTC_ADD_ID_CONSTRAINED : Nat := 25

/-- SSH_AGENT_CONSTRAIN_LIFETIME, from ssh-agent-proto.h. -/
def SSH_AGENT_CONSTRAIN_LIFETIME : Nat := 1

/-- SSH_AGENT_CONSTRAIN_CONFIRM, from ssh-agent-proto.h. -/
def SSH_AGENT_CONSTRAIN_CONFIRM : Nat := 2

/-- Minimal big-endian byte representation of n (structural recursion on a
fuel bound so that the kernel can evaluate it). -/
def natBytesBEAux : Nat → Nat → List Nat
  | 0, _ => []
  | fuel + 1, n => if n = 0 then [] else natBytesBEAux fuel (n / 256) ++ [n % 256]

/-- Minimal big-endian bytes of n (empty for 0). -/
def natBytesBE (n : Nat) : List Nat := natBytesBEAux n n

/-- Body of GCRYMPI_FMT_SSH for a nonnegative integer MPI: minimal
big-endian bytes, with a leading zero octet when the top bit is set
(two's-complement sign protection); empty for 0. -/
def sshMpiBody (n : Nat) : List Nat :=
  let b := natBytesBE n
  if 128 ≤ b.headD 0 then 0 :: b else b

/-- htonl / w32 (line 475): 32-bit big-endian encoding (truncating mod 2^32). -/
def w32 (v : Nat) : List Nat :=
  [v / 16777216 % 256, v / 65536 % 256, v / 256 % 256, v % 256]

/-- Full GCRYMPI_FMT_SSH encoding: 4-octet length then the body.  This is
what wmpi (line 478) writes for an integer MPI. -/
def sshMpi (n : Nat) : List Nat := w32 (sshMpiBody n).length ++ sshMpiBody n

/-- get_ssh_sz (lines 426-430) for an integer MPI: the size
gcry_mpi_print(GCRYMPI_FMT_SSH) reports.  The RSA send path only ever
reaches it with integer MPIs (a non-integer MPI would make the subsequent
wmpi fail, modelled through mpiSSH). -/
def get_ssh_sz (m : Mpi) : Nat :=
  match m with
  | .int n => 4 + (sshMpiBody n).length
  | _ => 0

/-- wmpi (lines 478-479): succeeds with the SSH encoding on integer MPIs;
gcry_mpi_print fails on raw or NULL MPIs, making send_to_ssh_agent return
-1 (modelled as none). -/
def mpiSSH : Mpi → Option (List Nat)
  | .int n => some (sshMpi n)
  | _ => none

/-- wstr (line 476): a NULL string is written as length 0 and no bytes. -/
def sshStr (s : Option (List Nat)) : List Nat :=
  w32 ((s.getD []).length) ++ s.getD []

/-- The bytes of "ssh-rsa". -/
def sshRsaId : List Nat := [115, 115, 104, 45, 114, 115, 97]

/-- The bytes of "ssh-ed25519". -/
def sshEd25519Id : List Nat := [115, 115, 104, 45, 101, 100, 50, 53, 53, 49, 57]

/-- The portion of the add-identity message after the leading 4-octet
declared length: opcode, key-type string, algorithm fields, comment, and
the optional constraint suffixes, in the order send_to_ssh_agent writes
them (lines 483-519). -/
def send_body (seconds : Nat) (confirm : Bool) (comment : Option (List Nat))
    (key_type fb : List Nat) : List Nat :=
  [if seconds ≠ 0 ∨ confirm then SSH2_AGENTC_ADD_ID_CONSTRAINED
   else SSH2_AGENTC_ADD_IDENTITY] ++
  sshStr (some key_type) ++ fb ++ sshStr comment ++
  (if confirm then [SSH_AGENT_CONSTRAIN_CONFIRM] else []) ++
  (if seconds ≠ 0 then SSH_AGENT_CONSTRAIN_LIFETIME :: w32 seconds else [])

/-- The add-identity message that send_to_ssh_agent (lines 432-519) builds
and writes in one buffer: none models every early `return -1` before the
write (unsupported key type, Ed25519 component check failure, wmpi
failure); otherwise the full buffer: the declared total length computed by
the len formula of lines 462-467, followed by the message body. -/
def send_build (e : Exporter) (seconds : Nat) (confirm : Bool)
    (comment : Option (List Nat)) : Option (List Nat) :=
  if e.ktype ≠ .kt_rsa ∧ e.ktype ≠ .kt_ed25519 then none
  else
    let key_type : List Nat := if e.ktype = .kt_rsa then sshRsaId else sshEd25519Id
    let mpilen : Nat :=
      if e.ktype = .kt_rsa then
        get_ssh_sz e.n + get_ssh_sz e.e + get_ssh_sz e.d +
          get_ssh_sz e.iqmp + get_ssh_sz e.p + get_ssh_sz e.q
      else 4 + 32 + 4 + 64
    let len : Nat := 1 + 4 + key_type.length + mpilen + 4 + (comment.getD []).length +
      (if confirm then 1 else 0) + (if seconds ≠ 0 then 5 else 0)
    let fields : Option (List Nat) :=
      if e.ktype = .kt_rsa then
        match mpiSSH e.n, mpiSSH e.e, mpiSSH e.d, mpiSSH e.iqmp, mpiSSH e.p, mpiSSH e.q with
        | some bn, some be, some bd, some bi, some bp, some bq =>
            some (bn ++ be ++ bd ++ bi ++ bp ++ bq)
        | _, _, _, _, _, _ => none
      else
        if e.q.rawBits ≠ 33 * 8 ∨ e.d.rawBits ≠ 32 * 8 ∨
            e.q.rawData = none ∨ e.d.rawData = none then none
        else
          some (w32 32 ++ ((e.q.rawBytes).drop 1).take 32 ++
                w32 64 ++ (e.d.rawBytes).take 32 ++ ((e.q.rawBytes).drop 1).take 32)
    match fields with
    | none => none
    | some fb => some (w32 len ++ send_body seconds confirm comment key_type fb)

/-- A concrete RSA exporter for the wire-framing witness. -/
def eC6 : Exporter :=
  { exporter0 with
      ktype := .kt_rsa
      n := .int 197, e := .int 3, d := .int 5, iqmp := .int 7, p := .int 11, q := .int 13 }

/-- The bytes of the comment "test". -/
def cmW : List Nat := [116, 101, 115, 116]

/- ------------------------------------------------------------------ -/
/- parse_args (main.c lines 628-692)                                   -/
/- ------------------------------------------------------------------ -/

/-- isxdigit of ctype.h in the C locale: 0-9, a-f, A-F. -/
def isxdigit (c : Char) : Bool :=
  (48 ≤ c.toNat ∧ c.toNat ≤ 57) ∨ (97 ≤ c.toNat ∧ c.toNat ≤ 102) ∨
    (65 ≤ c.toNat ∧ c.toNat ≤ 70)

/-- isspace of ctype.h in the C locale. -/
def isspaceC (c : Char) : Bool :=
  c.toNat = 32 ∨ (9 ≤ c.toNat ∧ c.toNat ≤ 13)

/-- The digit-consuming loop of atoi. -/
def atoiDigits : List Char → Nat → Nat
  | c :: rest, acc =>
      if 48 ≤ c.toNat ∧ c.toNat ≤ 57 then atoiDigits rest (acc * 10 + (c.toNat - 48))
      else acc
  | [], acc => acc

/-- atoi (overflow not modelled): leading C-locale whitespace, one optional
sign, then a decimal digit prefix. -/
def atoiC (s : String) : Int :=
  match s.data.dropWhile isspaceC with
  | '-' :: rest => -(atoiDigits rest 0 : Int)
  | '+' :: rest => (atoiDigits rest 0 : Int)
  | t => (atoiDigits t 0 : Int)

/-- struct args (lines 620-626). -/
structure Args where
  seconds : Int
  confirm : Bool
  comment : Option String
  keygrip : Option String
  help : Bool
deriving DecidableEq, Repr

/-- The zero-initialised args of main (line 702). -/
def args0 : Args :=
  { seconds := 0, confirm := false, comment := none, keygrip := none, help := false }

/-- The inner flag-character loop of parse_args (lines 636-652): walks the
characters after the dash, accumulating flag effects; an unknown flag
fails; returns whether a -t argument is expected. -/
def parse_flags : List Char → Args → Bool → Option (Args × Bool)
  | [], a, looking => some (a, looking)
  | c :: rest, a, looking =>
    if c = 'c' then parse_flags rest { a with confirm := true } looking
    else if c = 't' then parse_flags rest a true
    else if c = 'h' then parse_flags rest { a with help := true } looking
    else none

/-- parse_args (lines 628-692) over the arguments after argv[0]: none
models a nonzero (error) return.  A dash-initial argument is a flag
cluster, possibly consuming the next argument as the -t lifetime (which
must parse to a positive value); the first positional argument must be a
40-character hex keygrip; the second is the comment; a third is an error. -/
def parse_args_loop : List String → Args → Option Args
  | [], a => some a
  | arg :: rest, a =>
    if arg.data.head? = some '-' then
      match parse_flags arg.data.tail a false with
      | none => none
      | some (a2, looking) =>
        if looking then
          match rest with
          | [] => none
          | sArg :: rest2 =>
              if atoiC sArg ≤ 0 then none
              else parse_args_loop rest2 { a2 with seconds := atoiC sArg }
        else parse_args_loop rest a2
    else if a.keygrip = none then
      if arg.length ≠ 40 then none
      else if arg.data.all isxdigit then parse_args_loop rest { a with keygrip := some arg }
      else none
    else if a.comment = none then parse_args_loop rest { a with comment := some arg }
    else none

/-- A valid 40-hex-digit keygrip for witnesses. -/
def kgW : String := "0123456789abcdef0123456789ABCDEF01234567"

/- ------------------------------------------------------------------ -/
/- main (main.c lines 694-847), orchestration skeleton                 -/
/- ------------------------------------------------------------------ -/

/-- The externally observable I/O steps of main, in order of occurrence:
the connection to the ssh-agent socket, each connect attempt to the
gpg-agent socket, the launch of gpg-agent, and the assuan transactions
(OPTION forwarding, keywrap_key --export, SETKEYDESC, EXPORT_KEY) plus the
final add-identity write to the ssh-agent. -/
inductive Event where
  | connectSsh
  | connectAgent
  | launchAgent
  | optionSent
  | keywrapReq
  | setdescReq
  | exportReq
  | sendIdentity
deriving DecidableEq, Repr

/-- Oracle for everything outside main's own control flow: the argument
vector, the success of the socket / context setup steps, the outcome of
each connect attempt (none is success; a failure carries its gpg error
code), whether `gpgconf --launch gpg-agent` exits 0, which of the eight
environment forwardings actually send an OPTION (unset variables are
skipped; failures are logged and ignored either way), and the outcome of
each later stage. -/
structure World where
  argv : List String
  ssh_sock : Bool
  assuan_new_ok : Bool
  agent_sockname : Bool
  connect1 : Option GpgErrCode
  launch_ok : Bool
  connect2 : Option GpgErrCode
  env_present : List Bool
  keywrap_err : Option GpgErrCode
  setdesc_err : Option GpgErrCode
  export_err : Option GpgErrCode
  unwrap_err : Option GpgErrCode
  send_ok : Bool

/-- The transaction phase of main (lines 786-836): OPTION forwarding is
best-effort (lines 796-801), then keywrap_key --export, SETKEYDESC and
EXPORT_KEY each abort with exit status 1 on error (unwrap_key failure
aborts likewise, before any ssh-agent write), and finally the add-identity
message is sent. -/
def runTransactions (w : World) : List Event × Nat :=
  let envEvents := (w.env_present.map (fun b => if b then [Event.optionSent] else [])).flatten
  if w.keywrap_err.isSome then (envEvents ++ [.keywrapReq], 1)
  else if w.setdesc_err.isSome then (envEvents ++ [.keywrapReq, .setdescReq], 1)
  else if w.export_err.isSome then
    (envEvents ++ [.keywrapReq, .setdescReq, .exportReq], 1)
  else if w.unwrap_err.isSome then
    (envEvents ++ [.keywrapReq, .setdescReq, .exportReq], 1)
  else if w.send_ok = false then
    (envEvents ++ [.keywrapReq, .setdescReq, .exportReq, .sendIdentity], 1)
  else (envEvents ++ [.keywrapReq, .setdescReq, .exportReq, .sendIdentity], 0)

/-- main (lines 694-847) as the sequence of observable I/O events plus the
exit status.  Faithful to the source's control flow, including the branch
at lines 764-768: a first connect failure whose code is not
GPG_ERR_ASS_CONNECT_FAILED only prints a message and falls through (there
is no return in that branch), while GPG_ERR_ASS_CONNECT_FAILED triggers
one launch attempt and one reconnect, whose failure is fatal. -/
def mainRun (w : World) : List Event × Nat :=
  match parse_args_loop w.argv args0 with
  | none => ([], 1)
  | some args =>
    if args.help then ([], 0)
    else if w.ssh_sock = false then ([.connectSsh], 1)
    else if w.assuan_new_ok = false then ([.connectSsh], 1)
    else if w.agent_sockname = false then ([.connectSsh], 1)
    else
      match w.connect1 with
      | none =>
          let r := runTransactions w
          ([.connectSsh, .connectAgent] ++ r.1, r.2)
      | some err =>
        if err ≠ .ASS_CONNECT_FAILED then
          let r := runTransactions w
          ([.connectSsh, .connectAgent] ++ r.1, r.2)
        else if w.launch_ok = false then ([.connectSsh, .connectAgent, .launchAgent], 1)
        else
          match w.connect2 with
          | some _ => ([.connectSsh, .connectAgent, .launchAgent, .connectAgent], 1)
          | none =>
              let r := runTransactions w
              ([.connectSsh, .connectAgent, .launchAgent, .connectAgent] ++ r.1, r.2)

/-- A world where the first connect to gpg-agent fails with an error other
than GPG_ERR_ASS_CONNECT_FAILED, and the keywrap transaction then fails
(as it must on a context that never connected). -/
def wBug : World :=
  { argv := [kgW]
    ssh_sock := true
    assuan_new_ok := true
    agent_sockname := true
    connect1 := some .GENERAL
    launch_ok := true
    connect2 := none
    env_present := []
    keywrap_err := some (.other 277)
    setdesc_err := none
    export_err := none
    unwrap_err := none
    send_ok := true }

/-- A world invoked without any command-line argument (no keygrip), where
every external step succeeds. -/
def wNoKeygrip : World :=
  { argv := []
    ssh_sock := true
    assuan_new_ok := true
    agent_sockname := true
    connect1 := none
    launch_ok := true
    connect2 := none
    env_present := []
    keywrap_err := none
    setdesc_err := none
    export_err := none
    unwrap_err := none
    send_ok := true }

/-- The exporter right after cipher establishment, for the data_cb proofs. -/
def exporterWithCipher (c : WrapCipher) : Exporter :=
  { exporter0 with wrap_cipher := some c }

/- ------------------------------------------------------------------ -/
/- Theorems                                                            -/
/- ------------------------------------------------------------------ -/

theorem unhex_hexU (d : Nat) (h : d < 16) : unhex (hexU d) = d := by
  unfold hexU unhex
  split_ifs <;> omega

theorem unescape_esc (h l : Nat) (t : List Nat) :
    percent_plus_unescape (37 :: h :: l :: t) =
      (unhex h * 16 + unhex l) :: percent_plus_unescape t := by
  conv_lhs => rw [percent_plus_unescape.eq_def]
  norm_num

theorem unescape_plus (t : List Nat) :
    percent_plus_unescape (43 :: t) = 32 :: percent_plus_unescape t := by
  conv_lhs => rw [percent_plus_unescape.eq_def]
  norm_num

theorem unescape_lit (c : Nat) (t : List Nat) (h37 : c ≠ 37) (h43 : c ≠ 43) :
    percent_plus_unescape (c :: t) = c :: percent_plus_unescape t := by
  conv_lhs => rw [percent_plus_unescape.eq_def]
  simp [h37, h43]

theorem unescape_escapeByte (c : Nat) (t : List Nat) :
    percent_plus_unescape (escapeByte c ++ t) = c :: percent_plus_unescape t := by
  unfold escapeByte
  split_ifs with h1 h2
  · have hc : c ≤ 43 := by rcases h1 with h | h | h | h <;> omega
    simp only [List.cons_append, List.nil_append, unescape_esc]
    rw [unhex_hexU _ (by omega), unhex_hexU _ (Nat.mod_lt _ (by norm_num))]
    congr 1
    omega
  · subst h2
    simp only [List.cons_append, List.nil_append, unescape_plus]
  · simp only [List.cons_append, List.nil_append]
    exact unescape_lit c t
      (by rintro rfl; exact h1 (Or.inr (Or.inr (Or.inl rfl))))
      (by rintro rfl; exact h1 (Or.inl rfl))

theorem unescape_escape (s : List Nat) :
    percent_plus_unescape (percent_plus_escape s) = s := by
  induction s with
  | nil => rfl
  | cons c rest ih =>
      rw [show percent_plus_escape (c :: rest) = escapeByte c ++ percent_plus_escape rest
            from rfl,
          unescape_escapeByte, ih]

theorem escapeByte_ne_quote_space (c x : Nat) (hx : x ∈ escapeByte c) :
    x ≠ 34 ∧ x ≠ 32 := by
  unfold escapeByte at hx
  split_ifs at hx with h1 h2
  · have hc : c ≤ 43 := by rcases h1 with h | h | h | h <;> omega
    have hd1 : c / 16 < 10 := by omega
    have hd2 : c % 16 < 16 := Nat.mod_lt _ (by norm_num)
    simp only [List.mem_cons, List.not_mem_nil, or_false] at hx
    rcases hx with rfl | rfl | rfl
    · exact ⟨by omega, by omega⟩
    · unfold hexU
      by_cases hlt : c / 16 < 10
      · rw [if_pos hlt]
        omega
      · rw [if_neg hlt]
        omega
    · unfold hexU
      by_cases hlt : c % 16 < 10
      · rw [if_pos hlt]
        omega
      · rw [if_neg hlt]
        omega
  · simp only [List.mem_cons, List.not_mem_nil, or_false] at hx
    subst hx
    exact ⟨by omega, by omega⟩
  · simp only [List.mem_cons, List.not_mem_nil, or_false] at hx
    subst hx
    exact ⟨by rintro rfl; exact h1 (Or.inr (Or.inl rfl)), h2⟩

theorem escape_no_quote_space (s : List Nat) :
    34 ∉ percent_plus_escape s ∧ 32 ∉ percent_plus_escape s := by
  induction s with
  | nil => exact ⟨List.not_mem_nil 34, List.not_mem_nil 32⟩
  | cons c rest ih =>
      constructor
      · intro hmem
        rcases List.mem_append.mp hmem with h | h
        · exact (escapeByte_ne_quote_space c 34 h).1 rfl
        · exact ih.1 h
      · intro hmem
        rcases List.mem_append.mp hmem with h | h
        · exact (escapeByte_ne_quote_space c 32 h).2 rfl
        · exact ih.2 h

/-- C9: percent_plus_escape is a total, injective function on byte
strings: each space maps to the plus sign, each of plus, double quote,
percent and every byte below 0x20 maps to a three-octet %XX escape, every
other byte is unchanged, and the output never contains an unescaped double
quote (0x22) or an unescaped space (0x20). -/
theorem percent_plus_escape_spec :
    (∀ s1 s2 : List Nat, percent_plus_escape s1 = percent_plus_escape s2 → s1 = s2) ∧
    (∀ s : List Nat, 34 ∉ percent_plus_escape s ∧ 32 ∉ percent_plus_escape s) ∧
    escapeByte 32 = [43] ∧
    (∀ c, (c = 43 ∨ c = 34 ∨ c = 37 ∨ c < 32) →
        escapeByte c = [37, hexU (c / 16), hexU (c % 16)]) ∧
    (∀ c, ¬(c = 43 ∨ c = 34 ∨ c = 37 ∨ c < 32) → c ≠ 32 → escapeByte c = [c]) ∧
    (∀ c s, percent_plus_escape (c :: s) = escapeByte c ++ percent_plus_escape s) := by
  refine ⟨?_, escape_no_quote_space, rfl, ?_, ?_, fun c s => rfl⟩
  · intro s1 s2 h
    have := congrArg percent_plus_unescape h
    rwa [unescape_escape, unescape_escape] at this
  · intro c hc
    unfold escapeByte
    rw [if_pos hc]
  · intro c hc hc32
    unfold escapeByte
    rw [if_neg hc, if_neg hc32]

/-- Witness for C9 at the specification's example string. -/
theorem percent_plus_escape_spec_witness :
    obrien = obrien ∧ 34 ∉ percent_plus_escape obrien ∧ 32 ∉ percent_plus_escape obrien :=
  ⟨percent_plus_escape_spec.1 obrien obrien rfl,
   (percent_plus_escape_spec.2.1 obrien).1,
   (percent_plus_escape_spec.2.1 obrien).2⟩

/-- C10: the counting pass of percent_plus_escape always computes exactly
the number of bytes the second pass writes plus one for the terminating
NUL, so the writes stay within the allocated buffer. -/
theorem percent_plus_escape_length_count (s : List Nat) :
    escape_length s = (percent_plus_escape s).length + 1 := by
  induction s with
  | nil => rfl
  | cons c rest ih =>
      simp only [escape_length, percent_plus_escape, List.length_append, ih]
      unfold escapeByte
      split_ifs <;> (simp; omega)

theorem run_data_cb_nil (mk : List Nat → WrapCipher) (e : Exporter) :
    run_data_cb mk e [] = (.NO_ERROR, e) := rfl

theorem run_data_cb_cons (mk : List Nat → WrapCipher) (e : Exporter) (d : List Nat)
    (ds : List (List Nat)) :
    run_data_cb mk e (d :: ds) =
      if (data_cb mk e d).1 = .NO_ERROR then run_data_cb mk (data_cb mk e d).2 ds
      else data_cb mk e d := rfl

theorem run_data_cb_cons_ok (mk : List Nat → WrapCipher) (e e2 : Exporter) (d : List Nat)
    (ds : List (List Nat)) (hstep : data_cb mk e d = (.NO_ERROR, e2)) :
    run_data_cb mk e (d :: ds) = run_data_cb mk e2 ds := by
  rw [run_data_cb_cons, hstep]
  simp

theorem run_data_cb_cons_err (mk : List Nat → WrapCipher) (e e2 : Exporter) (r : GpgErrCode)
    (d : List Nat) (ds : List (List Nat)) (hstep : data_cb mk e d = (r, e2))
    (hr : r ≠ .NO_ERROR) :
    run_data_cb mk e (d :: ds) = (r, e2) := by
  rw [run_data_cb_cons, hstep]
  simp [hr]

theorem data_cb_established (mk : List Nat → WrapCipher) (e : Exporter) (d : List Nat)
    (c : WrapCipher) (hc : e.wrap_cipher = some c) :
    data_cb mk e d = extend_wrapped_key e d := by
  unfold data_cb
  rw [hc]

theorem run_data_cb_established (mk : List Nat → WrapCipher) (cs : List (List Nat)) :
    ∀ (e : Exporter) (c : WrapCipher), e.wrap_cipher = some c →
      (run_data_cb mk e cs).1 = .NO_ERROR ∧
      (run_data_cb mk e cs).2.wrap_cipher = some c ∧
      (run_data_cb mk e cs).2.wrapped_key.getD [] = e.wrapped_key.getD [] ++ cs.flatten ∧
      (run_data_cb mk e cs).2.wrapped_len = e.wrapped_len + cs.flatten.length := by
  induction cs with
  | nil =>
      intro e c hc
      simp [run_data_cb_nil, hc]
  | cons k rest ih =>
      intro e c hc
      rw [run_data_cb_cons_ok mk e
        { e with wrapped_key := some ((e.wrapped_key).getD [] ++ k)
                 wrapped_len := e.wrapped_len + k.length } k rest
        (data_cb_established mk e k c hc)]
      have := ih { e with wrapped_key := some ((e.wrapped_key).getD [] ++ k)
                          wrapped_len := e.wrapped_len + k.length } c hc
      simpa [List.append_assoc, Nat.add_assoc] using this

/-- C7: across every successful sequence of data_cb invocations starting
from the fresh exporter, the keywrap cipher is established exactly once,
from the first chunk (which must be the 16-octet key and is therefore
non-empty), before any bytes reach the wrapped-key buffer; every later
chunk is appended to the buffer in arrival order and never used as key
material. -/
theorem data_cb_cipher_then_buffer (mk : List Nat → WrapCipher) (k : List Nat)
    (rest : List (List Nat)) (r : GpgErrCode) (e' : Exporter)
    (h : run_data_cb mk exporter0 (k :: rest) = (r, e')) (hr : r = .NO_ERROR) :
    k.length = 16 ∧ e'.wrap_cipher = some (mk k) ∧
      e'.wrapped_key.getD [] = rest.flatten ∧ e'.wrapped_len = rest.flatten.length := by
  subst hr
  by_cases hk : k.length = keywrap_keylen
  · have hstep : data_cb mk exporter0 k = (.NO_ERROR, exporterWithCipher (mk k)) := by
      unfold data_cb exporterWithCipher
      simp [exporter0, hk]
    rw [run_data_cb_cons_ok mk exporter0 (exporterWithCipher (mk k)) k rest hstep] at h
    have hres := run_data_cb_established mk rest (exporterWithCipher (mk k)) (mk k) rfl
    rw [h] at hres
    refine ⟨hk, hres.2.1, ?_, ?_⟩
    · simpa [exporterWithCipher, exporter0] using hres.2.2.1
    · simpa [exporterWithCipher, exporter0] using hres.2.2.2
  · exfalso
    have hstep : data_cb mk exporter0 k = (.INV_KEYLEN, exporter0) := by
      unfold data_cb
      simp [exporter0, hk]
    rw [run_data_cb_cons_err mk exporter0 exporter0 .INV_KEYLEN k rest hstep (by simp)] at h
    simp at h

/-- Witness for C7: a 16-octet first chunk establishes the cipher and the
later chunks land in the buffer in order. -/
theorem data_cb_cipher_then_buffer_witness :
    (run_data_cb mkW exporter0 [List.replicate 16 0, [1, 2], [3]]).2.wrapped_key.getD []
        = [1, 2, 3] ∧
    (List.replicate 16 0).length = 16 := by
  have h := data_cb_cipher_then_buffer mkW (List.replicate 16 0) [[1, 2], [3]]
    (run_data_cb mkW exporter0 [List.replicate 16 0, [1, 2], [3]]).1
    (run_data_cb mkW exporter0 [List.replicate 16 0, [1, 2], [3]]).2
    rfl rfl
  exact ⟨h.2.2.1, h.1⟩

/-- C3: for every successfully extracted RSA key the iqmp field is the
modular inverse of q modulo p, so (iqmp * q) mod p = 1, and it never
depends on any iqmp value already present; when no modular inverse exists
the extraction fails with GPG_ERR_GENERAL and ktype is not set to RSA. -/
theorem unwrap_rsa_iqmp_derived (e : Exporter) (qv pv : Nat)
    (hq : e.q = .int qv) (hp : e.p = .int pv) :
    (∀ m : Mpi, (unwrap_rsa_key { e with iqmp := m }).2.iqmp = (unwrap_rsa_key e).2.iqmp) ∧
    (∀ r e', unwrap_rsa_key e = (r, e') → r = .NO_ERROR →
        e'.ktype = .kt_rsa ∧ ∃ x, e'.iqmp = .int x ∧ (x * qv) % pv = 1) ∧
    ((∀ x, x < pv → (x * qv) % pv ≠ 1) →
        (unwrap_rsa_key e).1 = .GENERAL ∧ (unwrap_rsa_key e).2.ktype = e.ktype) := by
  refine ⟨?_, ?_, ?_⟩
  · intro m
    unfold unwrap_rsa_key mpi_invm
    cases h : (match e.q, e.p with
      | Mpi.int qv, Mpi.int pv => (List.range pv).find? (fun x => (x * qv) % pv == 1)
      | _, _ => (none : Option Nat)) <;> simp_all
  · intro r e' hrun hr
    subst hr
    unfold unwrap_rsa_key at hrun
    cases hinv : mpi_invm e.q e.p with
    | none => rw [hinv] at hrun; exact absurd (congrArg Prod.fst hrun) (by simp)
    | some x =>
        rw [hinv] at hrun
        have he' : e' = { e with iqmp := .int x, ktype := .kt_rsa } :=
          (congrArg Prod.snd hrun).symm
        subst he'
        refine ⟨rfl, x, rfl, ?_⟩
        unfold mpi_invm at hinv
        rw [hq, hp] at hinv
        have := List.find?_some hinv
        simpa using this
  · intro hno
    have hinv : mpi_invm e.q e.p = none := by
      unfold mpi_invm
      rw [hq, hp]
      refine List.find?_eq_none.mpr ?_
      intro x hx
      simp only [beq_iff_eq]
      exact hno x (List.mem_range.mp hx)
    unfold unwrap_rsa_key
    rw [hinv]
    exact ⟨rfl, rfl⟩

/-- Witness for C3 with q = 3, p = 5: the derived iqmp is 2 and
(2 * 3) mod 5 = 1. -/
theorem unwrap_rsa_iqmp_derived_witness :
    (unwrap_rsa_key eC3).2.ktype = .kt_rsa ∧
      ∃ x, (unwrap_rsa_key eC3).2.iqmp = .int x ∧ (x * 3) % 5 = 1 :=
  (unwrap_rsa_iqmp_derived eC3 3 5 rfl rfl).2.1
    (unwrap_rsa_key eC3).1 (unwrap_rsa_key eC3).2 rfl (by decide)

/-- C5 (amended): unwrap_ed25519_key rejects, in order, a curve other than
"Ed25519" with GPG_ERR_UNKNOWN_CURVE, flags not matching eddsa with
GPG_ERR_UNKNOWN_FLAG, a public point q that is not a 33-octet raw value
with leading tag byte 0x40 with the single error GPG_ERR_INV_CURVE (the
same error for a wrong length and a wrong tag), a private scalar shorter
than 32 octets with GPG_ERR_TOO_SHORT and one longer than 32 octets with
GPG_ERR_TOO_LARGE; when all checks pass the key type becomes kt_ed25519. -/
theorem ed25519_validation_errors (e : Exporter) :
    (rawStrMatches e.curve ed25519Id = false →
        unwrap_ed25519_key e = (.UNKNOWN_CURVE, e)) ∧
    (rawStrMatches e.curve ed25519Id = true → rawStrMatches e.flags eddsaId = false →
        unwrap_ed25519_key e = (.UNKNOWN_FLAG, e)) ∧
    (rawStrMatches e.curve ed25519Id = true → rawStrMatches e.flags eddsaId = true →
      (e.q.rawBits ≠ 264 ∨ e.q.rawData = none ∨ (e.q.rawBytes).head? ≠ some 64) →
        unwrap_ed25519_key e = (.INV_CURVE, e)) ∧
    (rawStrMatches e.curve ed25519Id = true → rawStrMatches e.flags eddsaId = true →
      e.q.rawBits = 264 → (e.q.rawBytes).head? = some 64 →
      ∀ db dn, e.d = .raw db dn →
        (dn < 256 → unwrap_ed25519_key e = (.TOO_SHORT, e)) ∧
        (dn > 256 → unwrap_ed25519_key e = (.TOO_LARGE, e)) ∧
        (dn = 256 → unwrap_ed25519_key e = (.NO_ERROR, { e with ktype := .kt_ed25519 }))) := by
  refine ⟨?_, ?_, ?_, ?_⟩
  · intro hcu
    unfold unwrap_ed25519_key
    rw [if_pos hcu]
  · intro hcu hfl
    unfold unwrap_ed25519_key
    rw [if_neg (by simp [hcu]), if_pos hfl]
  · intro hcu hfl hq
    unfold unwrap_ed25519_key
    rw [if_neg (by simp [hcu]), if_neg (by simp [hfl]), if_pos hq]
  · intro hcu hfl hbits hhead db dn hd
    have hnone : ¬(e.q.rawBits ≠ 264 ∨ e.q.rawData = none ∨ (e.q.rawBytes).head? ≠ some 64) := by
      push_neg
      refine ⟨hbits, ?_, hhead⟩
      intro habs
      rw [Mpi.rawBytes, habs] at hhead
      simp at hhead
    refine ⟨?_, ?_, ?_⟩
    · intro hdn
      unfold unwrap_ed25519_key
      rw [if_neg (by simp [hcu]), if_neg (by simp [hfl]), if_neg hnone,
        if_pos (by rw [hd]; simpa [Mpi.rawBits] using hdn)]
    · intro hdn
      unfold unwrap_ed25519_key
      rw [if_neg (by simp [hcu]), if_neg (by simp [hfl]), if_neg hnone,
        if_neg (by rw [hd]; simp [Mpi.rawBits]; omega),
        if_pos (by rw [hd]; simpa [Mpi.rawBits] using hdn)]
    · intro hdn
      unfold unwrap_ed25519_key
      rw [if_neg (by simp [hcu]), if_neg (by simp [hfl]), if_neg hnone,
        if_neg (by rw [hd]; simp [Mpi.rawBits]; omega),
        if_neg (by rw [hd]; simp [Mpi.rawBits]; omega),
        if_neg (by rw [hd]; simp [Mpi.rawData])]

/-- Witness for C5 (amended): a 31-octet private scalar is rejected as too
short. -/
theorem ed25519_validation_errors_witness :
    unwrap_ed25519_key eShort = (.TOO_SHORT, eShort) :=
  (((ed25519_validation_errors eShort).2.2.2 (by decide) (by decide) (by decide) (by decide)
      (List.replicate 31 0) 248 rfl).1) (by decide)

/-- Counterexample for C5 as stated: a 32-octet public point with a valid
tag and a 33-octet public point with an invalid tag are rejected with the
same error GPG_ERR_INV_CURVE, not with distinct length- and tag-specific
errors. -/
theorem ed25519_point_errors_not_distinct :
    (unwrap_ed25519_key eLen).1 = .INV_CURVE ∧
    (unwrap_ed25519_key eTag).1 = .INV_CURVE ∧
    (unwrap_ed25519_key eLen).1 = (unwrap_ed25519_key eTag).1 := by
  refine ⟨?_, ?_, ?_⟩ <;> decide

theorem unwrap_rsa_key_preserves (e : Exporter) :
    (unwrap_rsa_key e).2.unwrapped_len = e.unwrapped_len ∧
    (unwrap_rsa_key e).2.unwrapped_key = e.unwrapped_key := by
  unfold unwrap_rsa_key
  cases mpi_invm e.q e.p <;> simp

theorem unwrap_ed25519_key_preserves (e : Exporter) :
    (unwrap_ed25519_key e).2.unwrapped_len = e.unwrapped_len ∧
    (unwrap_ed25519_key e).2.unwrapped_key = e.unwrapped_key := by
  unfold unwrap_ed25519_key
  split_ifs <;> simp

theorem extract_key_model_preserves (o : SexpOracle) (sx : List Nat) (e : Exporter) :
    (extract_key_model o sx e).2.unwrapped_len = e.unwrapped_len ∧
    (extract_key_model o sx e).2.unwrapped_key = e.unwrapped_key := by
  unfold extract_key_model
  cases hrsa : o.extract_rsa sx with
  | ok v =>
      obtain ⟨nv, ev, dv, pv, qv⟩ := v
      exact unwrap_rsa_key_preserves _
  | error ret =>
      dsimp only
      by_cases hnf : ret = .NOT_FOUND
      · rw [if_pos hnf]
        cases hecc : o.extract_ecc sx with
        | ok v =>
            obtain ⟨cu, fl, qq, dd⟩ := v
            exact unwrap_ed25519_key_preserves _
        | error ret2 => exact ⟨rfl, rfl⟩
      · rw [if_neg hnf]
        exact ⟨rfl, rfl⟩

theorem unwrap_key_reaches_extract (o : SexpOracle) (e : Exporter) (c : WrapCipher)
    (wk pt sx : List Nat)
    (hctx : e.ctx_valid = true) (hlen : 1 ≤ e.wrapped_len)
    (hc : e.wrap_cipher = some c) (hwk : e.wrapped_key = some wk)
    (hdec : c.decrypt wk = .ok pt) (hparse : o.parse pt = .ok sx) :
    unwrap_key o e = extract_key_model o sx
      { e with unwrapped_len := sub_size e.wrapped_len 8
               unwrapped_key := some pt
               sexp := some sx } := by
  simp only [unwrap_key, hc, hwk]
  rw [if_neg (by simp [hctx]; omega)]
  simp only [hdec, hparse]

/-- C2: unwrap_key fails with the state error GPG_ERR_GENERAL whenever the
keywrap cipher is not established or the wrapped-key buffer is missing or
empty; whenever it proceeds past decryption the unwrapped buffer length is
exactly the wrapped buffer length minus 8; and a decryption (integrity)
failure is returned as the cipher's own error code. -/
theorem unwrap_key_state_and_length (o : SexpOracle) (e : Exporter) :
    ((e.wrap_cipher = none ∨ e.wrapped_key = none ∨ e.wrapped_len < 1) →
        unwrap_key o e = (.GENERAL, e)) ∧
    (∀ c wk pt, e.ctx_valid = true → 1 ≤ e.wrapped_len → e.wrapped_len < 2 ^ 64 →
        e.wrap_cipher = some c → e.wrapped_key = some wk → wk.length = e.wrapped_len →
        c.decrypt wk = .ok pt →
        (unwrap_key o e).2.unwrapped_len = e.wrapped_len - 8 ∧
        (unwrap_key o e).2.unwrapped_key = some pt ∧ pt.length = e.wrapped_len - 8) ∧
    (∀ c wk ce, e.ctx_valid = true → 1 ≤ e.wrapped_len →
        e.wrap_cipher = some c → e.wrapped_key = some wk →
        c.decrypt wk = .error ce → (unwrap_key o e).1 = ce) := by
  refine ⟨?_, ?_, ?_⟩
  · intro h
    rcases h with h | h | h
    · cases hwk : e.wrapped_key <;> simp [unwrap_key, h, hwk]
    · cases hc : e.wrap_cipher <;> simp [unwrap_key, h, hc]
    · cases hc : e.wrap_cipher with
      | none => cases hwk : e.wrapped_key <;> simp [unwrap_key, hc, hwk]
      | some c =>
          cases hwk : e.wrapped_key with
          | none => simp [unwrap_key, hc, hwk]
          | some wk => simp [unwrap_key, hc, hwk, h]
  · intro c wk pt hctx hlen hbound hc hwk hwklen hdec
    have h16 := (c.decrypt_ok wk pt hdec).1
    have hptlen := (c.decrypt_ok wk pt hdec).2.2
    have hsub : sub_size e.wrapped_len 8 = e.wrapped_len - 8 := by
      unfold sub_size
      omega
    cases hparse : o.parse pt with
    | error ret =>
        have hres : unwrap_key o e =
            (ret, { e with unwrapped_len := sub_size e.wrapped_len 8
                           unwrapped_key := some pt }) := by
          simp only [unwrap_key, hc, hwk]
          rw [if_neg (by simp [hctx]; omega)]
          simp only [hdec, hparse]
        rw [hres]
        exact ⟨by simp [hsub], by simp, by omega⟩
    | ok sx =>
        rw [unwrap_key_reaches_extract o e c wk pt sx hctx hlen hc hwk hdec hparse]
        have hpres := extract_key_model_preserves o sx
          { e with unwrapped_len := sub_size e.wrapped_len 8
                   unwrapped_key := some pt
                   sexp := some sx }
        refine ⟨?_, ?_, by omega⟩
        · rw [hpres.1]
          simpa using hsub
        · rw [hpres.2]
  · intro c wk ce hctx hlen hc hwk hdec
    have hres : unwrap_key o e =
        (ce, { e with unwrapped_len := sub_size e.wrapped_len 8 }) := by
      simp only [unwrap_key, hc, hwk]
      rw [if_neg (by simp [hctx]; omega)]
      simp only [hdec]
    rw [hres]

/-- Witness for C2: a 24-octet wrapped blob decrypts to a 16-octet
plaintext and the state fields follow. -/
theorem unwrap_key_state_and_length_witness :
    (unwrap_key oW eC2).2.unwrapped_len = 16 ∧
    (unwrap_key oW eC2).2.unwrapped_key = some (List.replicate 16 7) := by
  have h := (unwrap_key_state_and_length oW eC2).2.1 cW (List.replicate 24 3)
    (List.replicate 16 7) rfl (by decide) (by decide) rfl rfl (by decide) rfl
  exact ⟨h.1, h.2.1⟩

/-- C4: once unwrap_key reaches extraction, the RSA schema is tried first;
the Ed25519 schema is attempted exactly when RSA extraction returns a
clean GPG_ERR_NOT_FOUND (any other RSA extraction error is returned
immediately, whatever the Ed25519 oracle would do); an Ed25519 extraction
error is returned as is, so when neither schema matches the function fails
with the unsupported-algorithm outcome GPG_ERR_NOT_FOUND. -/
theorem unwrap_key_schema_precedence (o : SexpOracle) (sx : List Nat) (e : Exporter) :
    (∀ c wk pt, e.ctx_valid = true → 1 ≤ e.wrapped_len →
        e.wrap_cipher = some c → e.wrapped_key = some wk →
        c.decrypt wk = .ok pt → o.parse pt = .ok sx →
        unwrap_key o e = extract_key_model o sx
          { e with unwrapped_len := sub_size e.wrapped_len 8
                   unwrapped_key := some pt
                   sexp := some sx }) ∧
    (∀ nv ev dv pv qv, o.extract_rsa sx = .ok (nv, ev, dv, pv, qv) →
        extract_key_model o sx e = unwrap_rsa_key
          { e with n := .int nv, e := .int ev, d := .int dv, p := .int pv, q := .int qv }) ∧
    (∀ r, o.extract_rsa sx = .error r → r ≠ .NOT_FOUND →
        extract_key_model o sx e = (r, e)) ∧
    (∀ cu fl qq dd, o.extract_rsa sx = .error .NOT_FOUND →
        o.extract_ecc sx = .ok (cu, fl, qq, dd) →
        extract_key_model o sx e =
          unwrap_ed25519_key { e with curve := cu, flags := fl, q := qq, d := dd }) ∧
    (∀ r2, o.extract_rsa sx = .error .NOT_FOUND → o.extract_ecc sx = .error r2 →
        extract_key_model o sx e = (r2, e)) ∧
    (o.extract_rsa sx = .error .NOT_FOUND → o.extract_ecc sx = .error .NOT_FOUND →
        (extract_key_model o sx e).1 = .NOT_FOUND) := by
  refine ⟨?_, ?_, ?_, ?_, ?_, ?_⟩
  · intro c wk pt hctx hlen hc hwk hdec hparse
    exact unwrap_key_reaches_extract o e c wk pt sx hctx hlen hc hwk hdec hparse
  · intro nv ev dv pv qv hrsa
    simp only [extract_key_model, hrsa]
  · intro r hrsa hnf
    simp only [extract_key_model, hrsa]
    rw [if_neg hnf]
  · intro cu fl qq dd hrsa hecc
    simp [extract_key_model, hrsa, hecc]
  · intro r2 hrsa hecc
    simp [extract_key_model, hrsa, hecc]
  · intro hrsa hecc
    simp [extract_key_model, hrsa, hecc]

/-- Witness for C4: with both schemas answering GPG_ERR_NOT_FOUND, the
extraction fails with GPG_ERR_NOT_FOUND. -/
theorem unwrap_key_schema_precedence_witness :
    (extract_key_model oW [] exporter0).1 = .NOT_FOUND :=
  (unwrap_key_schema_precedence oW [] exporter0).2.2.2.2.2 rfl rfl

/-- C1: the code_bug evaluation.  When the first connect to the gpg-agent
fails with an error other than GPG_ERR_ASS_CONNECT_FAILED, main only
prints a message (the branch at lines 764-768 has no return) and proceeds
with the session on the unconnected context: the keywrap protocol
transaction is still attempted, no launch happens, and the run only ends
when that transaction fails.  The specification instead demands an
immediate fatal exit with no subsequent protocol transaction. -/
theorem main_connect_error_not_fatal :
    mainRun wBug = ([.connectSsh, .connectAgent, .keywrapReq], 1) ∧
    Event.keywrapReq ∈ (mainRun wBug).1 ∧
    Event.launchAgent ∉ (mainRun wBug).1 := by
  refine ⟨?_, ?_, ?_⟩ <;> decide

theorem isxdigit_ne_dash (c : Char) (h : isxdigit c = true) : c ≠ '-' := by
  intro hc
  subst hc
  exact absurd h (by decide)

/-- C8 (amended): argument validation accepts every 40-character
hexadecimal keygrip and rejects, fatally before any I/O, a keygrip
argument of a different length or containing a non-hex character, as well
as a missing value for the -t lifetime flag; after any argument error the
program exits with status 1 without any protocol activity.  An absent
keygrip, however, is not rejected: parsing an empty argument vector
succeeds with no keygrip set. -/
theorem parse_args_keygrip_validation :
    (∀ (arg : String) (rest : List String) (a : Args), a.keygrip = none →
        arg.length = 40 → arg.data.all isxdigit = true →
        parse_args_loop (arg :: rest) a = parse_args_loop rest { a with keygrip := some arg }) ∧
    (∀ (arg : String) (rest : List String) (a : Args), a.keygrip = none →
        arg.data.head? ≠ some '-' → arg.length ≠ 40 →
        parse_args_loop (arg :: rest) a = none) ∧
    (∀ (arg : String) (rest : List String) (a : Args), a.keygrip = none →
        arg.data.head? ≠ some '-' → arg.length = 40 → arg.data.all isxdigit = false →
        parse_args_loop (arg :: rest) a = none) ∧
    (∀ a : Args, parse_args_loop ["-t"] a = none) ∧
    (∀ a : Args, parse_args_loop [] a = some a) ∧
    (∀ w : World, parse_args_loop w.argv args0 = none → mainRun w = ([], 1)) := by
  refine ⟨?_, ?_, ?_, ?_, fun a => rfl, ?_⟩
  · intro arg rest a hkg hlen hall
    have hhead : ¬arg.data.head? = some '-' := by
      cases harg : arg.data with
      | nil =>
          simp
      | cons c cs =>
          have hc : isxdigit c = true :=
            List.all_eq_true.mp (harg ▸ hall) c (by simp)
          simp only [List.head?_cons, Option.some.injEq]
          intro hdash
          exact isxdigit_ne_dash c hc hdash
    simp only [parse_args_loop]
    rw [if_neg hhead, if_pos hkg, if_neg (fun h => h hlen), if_pos hall]
  · intro arg rest a hkg hhead hlen
    simp only [parse_args_loop]
    rw [if_neg hhead, if_pos hkg, if_pos hlen]
  · intro arg rest a hkg hhead hlen hall
    simp only [parse_args_loop]
    rw [if_neg hhead, if_pos hkg, if_neg (fun h => h hlen),
      if_neg (by simp [hall])]
  · intro a
    simp [parse_args_loop, parse_flags]
  · intro w h
    simp only [mainRun, h]

/-- Witness for C8 (amended): the concrete 40-hex-digit keygrip is
accepted and recorded. -/
theorem parse_args_keygrip_validation_witness :
    parse_args_loop [kgW] args0 = some { args0 with keygrip := some kgW } :=
  (parse_args_keygrip_validation.1 kgW [] args0 rfl (by decide) (by decide)).trans rfl

/-- Counterexample for C8 as stated: a missing keygrip is not rejected by
argument validation — parsing an empty argument vector succeeds with no
keygrip set, and the session then performs its full protocol activity. -/
theorem parse_args_missing_keygrip_accepted :
    parse_args_loop [] args0 = some args0 ∧ args0.keygrip = none ∧
    mainRun wNoKeygrip =
      ([.connectSsh, .connectAgent, .keywrapReq, .setdescReq, .exportReq, .sendIdentity], 0) := by
  refine ⟨rfl, rfl, by decide⟩

theorem w32_length (v : Nat) : (w32 v).length = 4 := rfl

theorem sshStr_length (s : Option (List Nat)) :
    (sshStr s).length = 4 + (s.getD []).length := by
  simp [sshStr, w32]
  omega

theorem mpiSSH_length (m : Mpi) (b : List Nat) (h : mpiSSH m = some b) :
    b.length = get_ssh_sz m := by
  cases m with
  | int n =>
      simp only [mpiSSH, Option.some.injEq] at h
      subst h
      simp [sshMpi, get_ssh_sz, w32]
      omega
  | null => simp [mpiSSH] at h
  | raw bs nb => simp [mpiSSH] at h

theorem send_body_length (seconds : Nat) (confirm : Bool) (comment : Option (List Nat))
    (key_type fb : List Nat) :
    (send_body seconds confirm comment key_type fb).length =
      1 + (4 + key_type.length) + fb.length + (4 + (comment.getD []).length) +
        (if confirm then 1 else 0) + (if seconds ≠ 0 then 5 else 0) := by
  unfold send_body
  split_ifs <;> (simp [sshStr_length, w32]; omega)

theorem send_body_head (seconds : Nat) (confirm : Bool) (comment : Option (List Nat))
    (key_type fb : List Nat) :
    (send_body seconds confirm comment key_type fb).head? =
      some (if seconds ≠ 0 ∨ confirm then SSH2_AGENTC_ADD_ID_CONSTRAINED
            else SSH2_AGENTC_ADD_IDENTITY) := rfl

theorem send_body_head_iff (seconds : Nat) (confirm : Bool) (comment : Option (List Nat))
    (key_type fb : List Nat) :
    ((send_body seconds confirm comment key_type fb).head? =
        some SSH2_AGENTC_ADD_ID_CONSTRAINED ↔ (seconds ≠ 0 ∨ confirm = true)) := by
  rw [send_body_head]
  by_cases hcond : seconds ≠ 0 ∨ confirm = true
  · simp [hcond]
  · rw [if_neg hcond]
    simp only [Option.some.injEq]
    constructor
    · intro habs
      exact absurd habs (by decide)
    · intro habs
      exact absurd habs hcond

theorem send_build_rsa (e : Exporter) (seconds : Nat) (confirm : Bool)
    (comment : Option (List Nat)) (bn be bd bi bp bq : List Nat)
    (hkt : e.ktype = .kt_rsa) (hn : mpiSSH e.n = some bn) (he : mpiSSH e.e = some be)
    (hd : mpiSSH e.d = some bd) (hi : mpiSSH e.iqmp = some bi)
    (hp : mpiSSH e.p = some bp) (hq : mpiSSH e.q = some bq) :
    send_build e seconds confirm comment =
      some (w32 (1 + 4 + sshRsaId.length +
          (get_ssh_sz e.n + get_ssh_sz e.e + get_ssh_sz e.d +
            get_ssh_sz e.iqmp + get_ssh_sz e.p + get_ssh_sz e.q) +
          4 + (comment.getD []).length +
          (if confirm then 1 else 0) + (if seconds ≠ 0 then 5 else 0)) ++
        send_body seconds confirm comment sshRsaId (bn ++ be ++ bd ++ bi ++ bp ++ bq)) := by
  simp [send_build, hkt, hn, he, hd, hi, hp, hq]

theorem send_build_ed25519 (e : Exporter) (seconds : Nat) (confirm : Bool)
    (comment : Option (List Nat)) (qb db : List Nat)
    (hkt : e.ktype = .kt_ed25519) (hq : e.q = .raw qb 264) (hd : e.d = .raw db 256) :
    send_build e seconds confirm comment =
      some (w32 (1 + 4 + sshEd25519Id.length + (4 + 32 + 4 + 64) +
          4 + (comment.getD []).length +
          (if confirm then 1 else 0) + (if seconds ≠ 0 then 5 else 0)) ++
        send_body seconds confirm comment sshEd25519Id
          (w32 32 ++ ((qb.drop 1).take 32) ++ w32 64 ++ db.take 32 ++ ((qb.drop 1).take 32))) := by
  simp [send_build, hkt, hq, hd, Mpi.rawBits, Mpi.rawData, Mpi.rawBytes]

/-- C6: every message send_to_ssh_agent actually writes is framed so that
the leading 4-octet declared total length is exactly the number of bytes
that follow it, and the opcode byte directly after the length field is the
constrained-add opcode exactly when a confirmation constraint or a nonzero
lifetime is requested, and the plain add-identity opcode otherwise. -/
theorem add_identity_framing (e : Exporter) (seconds : Nat) (confirm : Bool)
    (comment : Option (List Nat)) (msg : List Nat)
    (hwfq : mpiWF e.q) (hwfd : mpiWF e.d)
    (h : send_build e seconds confirm comment = some msg) :
    ∃ rest, msg = w32 rest.length ++ rest ∧
      rest.head? = some (if seconds ≠ 0 ∨ confirm then SSH2_AGENTC_ADD_ID_CONSTRAINED
                         else SSH2_AGENTC_ADD_IDENTITY) ∧
      (rest.head? = some SSH2_AGENTC_ADD_ID_CONSTRAINED ↔ (seconds ≠ 0 ∨ confirm = true)) := by
  rcases hkt : e.ktype with _ | _ | _
  · exfalso
    simp [send_build, hkt] at h
  · -- RSA
    rcases hn : mpiSSH e.n with _ | bn
    · exfalso; simp [send_build, hkt, hn] at h
    rcases he : mpiSSH e.e with _ | be
    · exfalso; simp [send_build, hkt, hn, he] at h
    rcases hd : mpiSSH e.d with _ | bd
    · exfalso; simp [send_build, hkt, hn, he, hd] at h
    rcases hi : mpiSSH e.iqmp with _ | bi
    · exfalso; simp [send_build, hkt, hn, he, hd, hi] at h
    rcases hp : mpiSSH e.p with _ | bp
    · exfalso; simp [send_build, hkt, hn, he, hd, hi, hp] at h
    rcases hq : mpiSSH e.q with _ | bq
    · exfalso; simp [send_build, hkt, hn, he, hd, hi, hp, hq] at h
    rw [send_build_rsa e seconds confirm comment bn be bd bi bp bq hkt hn he hd hi hp hq,
      Option.some.injEq] at h
    refine ⟨send_body seconds confirm comment sshRsaId (bn ++ be ++ bd ++ bi ++ bp ++ bq),
      ?_, send_body_head _ _ _ _ _, send_body_head_iff _ _ _ _ _⟩
    rw [← h]
    have hlen : 1 + 4 + sshRsaId.length +
        (get_ssh_sz e.n + get_ssh_sz e.e + get_ssh_sz e.d +
          get_ssh_sz e.iqmp + get_ssh_sz e.p + get_ssh_sz e.q) +
        4 + (comment.getD []).length +
        (if confirm then 1 else 0) + (if seconds ≠ 0 then 5 else 0) =
        (send_body seconds confirm comment sshRsaId
          (bn ++ be ++ bd ++ bi ++ bp ++ bq)).length := by
      rw [send_body_length]
      have hbn := mpiSSH_length e.n bn hn
      have hbe := mpiSSH_length e.e be he
      have hbd := mpiSSH_length e.d bd hd
      have hbi := mpiSSH_length e.iqmp bi hi
      have hbp := mpiSSH_length e.p bp hp
      have hbq := mpiSSH_length e.q bq hq
      simp only [List.length_append, hbn, hbe, hbd, hbi, hbp, hbq]
      omega
    exact congrArg (fun l => w32 l ++ send_body seconds confirm comment sshRsaId
      (bn ++ be ++ bd ++ bi ++ bp ++ bq)) hlen
  · -- Ed25519
    rcases hq : e.q with _ | nv | ⟨qb, qn⟩
    · exfalso; simp [send_build, hkt, hq, Mpi.rawData, Mpi.rawBits] at h
    · exfalso; simp [send_build, hkt, hq, Mpi.rawData, Mpi.rawBits] at h
    rcases hdm : e.d with _ | dv | ⟨db, dn⟩
    · exfalso; simp [send_build, hkt, hq, hdm, Mpi.rawData, Mpi.rawBits] at h
    · exfalso; simp [send_build, hkt, hq, hdm, Mpi.rawData, Mpi.rawBits] at h
    by_cases hqn : qn = 264
    swap
    · exfalso; simp [send_build, hkt, hq, hdm, Mpi.rawData, Mpi.rawBits, hqn] at h
    by_cases hdn : dn = 256
    swap
    · exfalso; simp [send_build, hkt, hq, hdm, Mpi.rawData, Mpi.rawBits, hqn, hdn] at h
    subst hqn
    subst hdn
    have hqb : qb.length = 33 := by
      rw [hq] at hwfq
      simp only [mpiWF] at hwfq
      omega
    have hdb : db.length = 32 := by
      rw [hdm] at hwfd
      simp only [mpiWF] at hwfd
      omega
    rw [send_build_ed25519 e seconds confirm comment qb db hkt hq hdm,
      Option.some.injEq] at h
    refine ⟨send_body seconds confirm comment sshEd25519Id
        (w32 32 ++ ((qb.drop 1).take 32) ++ w32 64 ++ db.take 32 ++ ((qb.drop 1).take 32)),
      ?_, send_body_head _ _ _ _ _, send_body_head_iff _ _ _ _ _⟩
    rw [← h]
    have hlen : 1 + 4 + sshEd25519Id.length + (4 + 32 + 4 + 64) +
        4 + (comment.getD []).length +
        (if confirm then 1 else 0) + (if seconds ≠ 0 then 5 else 0) =
        (send_body seconds confirm comment sshEd25519Id
          (w32 32 ++ ((qb.drop 1).take 32) ++ w32 64 ++ db.take 32 ++
            ((qb.drop 1).take 32))).length := by
      rw [send_body_length]
      have hdrop : (qb.drop 1).length = 32 := by
        simp [hqb]
      simp only [List.length_append, List.length_take, hdrop, hdb, w32_length]
      omega
    exact congrArg (fun l => w32 l ++ send_body seconds confirm comment sshEd25519Id
      (w32 32 ++ ((qb.drop 1).take 32) ++ w32 64 ++ db.take 32 ++ ((qb.drop 1).take 32))) hlen

/-- Witness for C6: a concrete RSA key model with comment "test", no
confirmation and no lifetime gives a correctly framed message carrying the
plain add-identity opcode. -/
theorem add_identity_framing_witness :
    ∃ msg rest, send_build eC6 0 false (some cmW) = some msg ∧
      msg = w32 rest.length ++ rest ∧ rest.head? = some SSH2_AGENTC_ADD_IDENTITY := by
  rcases hmsg : send_build eC6 0 false (some cmW) with _ | msg
  · exact absurd hmsg (by decide)
  · obtain ⟨rest, h1, h2, h3⟩ :=
      add_identity_framing eC6 0 false (some cmW) msg trivial trivial hmsg
    refine ⟨msg, rest, rfl, h1, ?_⟩
    rw [h2]
    simp
